import Mathlib

/-!
Verification development for the receipt splitter frontend.

The embedded code comes from:
* `frontend/src/app/page.tsx` — the quality gate (`isReceiptTooPoor`) and the
  upload → review → results interview state machine (`handleUpload`,
  `handleFailedAttempt`, `handleInterview`, `handleStartOver`);
* `frontend/src/components/ResultsStep.tsx` — the reconciliation display;
* `frontend/src/components/ReviewStep.tsx` — the submit guard;
* the SQL schema (`receipts`, `receipt_items`, `participants`, `assignments`
  tables with their CHECK constraints).

Decimal amounts that travel as decimal strings in JSON are embedded by their
rational values (the spec fixes fixed-point decimal semantics for money), and
JavaScript string operations (`toLowerCase`, `includes`, `trim`, `join`) are
embedded as structurally recursive functions over the character list so that
they evaluate inside the kernel.
-/

namespace ReceiptSplitter

/-! ## String helpers (JavaScript `includes`, `toLowerCase`, `trim`, `join`) -/

/-- Substring containment over character lists, mirroring JS `String.includes`. -/
def strContainsAux (pat : List Char) : List Char → Bool
  | [] => pat.isEmpty
  | c :: cs => pat.isPrefixOf (c :: cs) || strContainsAux pat cs

/-- `strContains s pat` is JS `s.includes(pat)`. -/
def strContains (s pat : String) : Bool := strContainsAux pat.data s.data

/-- JS `toLowerCase` (agrees with it on the ASCII strings the gate matches). -/
def toLowerStr (s : String) : String := String.mk (s.data.map Char.toLower)

/-- JS `String.trim`: drop leading and trailing whitespace. -/
def trimStr (s : String) : String :=
  String.mk (((s.data.dropWhile Char.isWhitespace).reverse.dropWhile
      Char.isWhitespace).reverse)

/-- JS `Array.join(sep)`. -/
def joinSep (sep : String) : List String → String
  | [] => ""
  | [s] => s
  | s :: rest => s ++ sep ++ joinSep sep rest

/-! ## Data model (from `frontend/src/lib/types.ts`) -/

/-- A receipt line item (`Item` in `types.ts`; decimal strings as rationals). -/
structure Item where
  name : String
  price : ℚ
  quantity : ℚ
deriving DecidableEq

/-- Receipt-level totals (`Totals` in `types.ts`). -/
structure Totals where
  subtotal : ℚ
  tax_total : ℚ
  tip_total : ℚ
  fees_total : ℚ
  grand_total : ℚ
deriving DecidableEq

/-- The share one participant takes of one item (`AssignmentShare` in `types.ts`). -/
structure AssignmentShare where
  participant : String
  fraction : ℚ
deriving DecidableEq

/-- Fractional shares of one item (`ItemAssignment` in `types.ts`). -/
structure ItemAssignment where
  item_index : Nat
  shares : List AssignmentShare
deriving DecidableEq

/-- One line of the per-participant itemized costs (`item_costs` entries). -/
structure ItemCostLine where
  item_index : Nat
  item_name : String
  item_price : ℚ
  quantity : ℚ
  share_percentage : ℚ
  cost : ℚ
deriving DecidableEq

/-- Per-participant result (`ParticipantCost` in `types.ts`). -/
structure ParticipantCost where
  participant : String
  item_costs : List ItemCostLine
  subtotal : ℚ
  tax_share : ℚ
  tip_share : ℚ
  fees_share : ℚ
  total_owed : ℚ
deriving DecidableEq

/-- Backend session state for one thread (`ReceiptState` in `types.ts`). -/
structure ReceiptState where
  thread_id : String
  items : List Item
  participants : List String
  assignments : List ItemAssignment
  totals : Option Totals
  pending_questions : List String
  final_costs : Option (List ParticipantCost)
deriving DecidableEq

/-! ## Quality gate (`isReceiptTooPoor` in `page.tsx`) -/

/-- A diagnostic message signalling vision-model failure
(`q.toLowerCase().includes("vision model failed")`). -/
def visionFailedFlag (q : String) : Bool :=
  strContains (toLowerStr q) "vision model failed"

/-- A diagnostic message flagging a low-confidence field
(`q.toLowerCase().includes("confidence")`). -/
def confidenceFlag (q : String) : Bool :=
  strContains (toLowerStr q) "confidence"

/-- `isReceiptTooPoor` from `page.tsx`: reject (re-upload) when the vision
model reported outright failure, when no items were extracted, or when at
least half of the `3 × items.count` field slots were flagged low-confidence. -/
def isReceiptTooPoor (state : ReceiptState) : Bool :=
  if state.pending_questions.length = 1 ∧
      visionFailedFlag (state.pending_questions.headD "") = true then
    true
  else if state.items.length = 0 then
    true
  else
    let totalFields := state.items.length * 3
    let flagCount := (state.pending_questions.filter (fun q => confidenceFlag q)).length
    decide (totalFields > 0 ∧ ((flagCount : ℚ) / (totalFields : ℚ) ≥ 1 / 2))

/-- Rejection rule 1 of the gate: exactly one diagnostic message, and it
signals extraction-process failure. -/
def ruleHardFail (s : ReceiptState) : Bool :=
  match s.pending_questions with
  | [q] => visionFailedFlag q
  | _ => false

/-- Rejection rule 2 of the gate: zero items extracted. -/
def ruleEmpty (s : ReceiptState) : Bool :=
  s.items.isEmpty

/-- Number of diagnostic messages flagging a low-confidence field. -/
def flaggedCount (s : ReceiptState) : Nat :=
  (s.pending_questions.filter (fun q => confidenceFlag q)).length

/-- Rejection rule 3 of the gate: at least half of the `3 × items.count`
field slots are flagged low-confidence (and there is at least one slot). -/
def ruleLowConf (s : ReceiptState) : Bool :=
  decide (s.items.length * 3 > 0 ∧
    ((flaggedCount s : ℚ) / ((s.items.length * 3 : Nat) : ℚ) ≥ 1 / 2))

lemma ruleLowConf_of_half (s : ReceiptState) (hne : s.items ≠ [])
    (h : s.items.length * 3 ≤ 2 * flaggedCount s) : ruleLowConf s = true := by
  have hpos : 0 < s.items.length := List.length_pos.mpr hne
  have hposQ : (0 : ℚ) < ((s.items.length * 3 : Nat) : ℚ) := by
    have : 0 < s.items.length * 3 := by omega
    exact_mod_cast this
  have hdiv : ((flaggedCount s : ℚ) / ((s.items.length * 3 : Nat) : ℚ) ≥ 1 / 2) := by
    rw [ge_iff_le, div_le_div_iff₀ (by norm_num) hposQ]
    have : ((s.items.length * 3 : Nat) : ℚ) ≤ 2 * (flaggedCount s : ℚ) := by
      exact_mod_cast h
    linarith
  simp only [ruleLowConf, decide_eq_true_eq]
  exact ⟨by omega, hdiv⟩

lemma isReceiptTooPoor_eq_rules (s : ReceiptState) :
    isReceiptTooPoor s = (ruleHardFail s || ruleEmpty s || ruleLowConf s) := by
  unfold isReceiptTooPoor ruleHardFail ruleEmpty ruleLowConf flaggedCount
  rcases hq : s.pending_questions with _ | ⟨q, qs⟩
  · simp only [hq, List.length_nil]
    rcases hi : s.items with _ | ⟨it, its⟩
    · simp
    · simp [hi]
  · rcases qs with _ | ⟨q2, qs2⟩
    · by_cases hv : visionFailedFlag q = true
      · simp [hq, hv]
      · simp only [hq, List.length_cons, List.length_nil, List.headD_cons]
        rcases hi : s.items with _ | ⟨it, its⟩
        · simp [hv]
        · simp [hv, hi]
    · simp only [hq, List.length_cons]
      rcases hi : s.items with _ | ⟨it, its⟩
      · simp
      · simp [hi]

/-- Claim C1: the quality gate is exactly the ordered disjunction of its three
rejection rules (hard extraction failure; zero items; at least half of the
`3 × N` field slots flagged low-confidence, boundary inclusive); in particular
every extraction with zero items is rejected, and every extraction in which at
least half of the field slots are flagged low-confidence is rejected. -/
theorem C1_quality_gate :
    (∀ s : ReceiptState,
        isReceiptTooPoor s = (ruleHardFail s || ruleEmpty s || ruleLowConf s)) ∧
    (∀ s : ReceiptState, s.items = [] → isReceiptTooPoor s = true) ∧
    (∀ s : ReceiptState, s.items.length * 3 ≤ 2 * flaggedCount s →
        isReceiptTooPoor s = true) := by
  refine ⟨isReceiptTooPoor_eq_rules, ?_, ?_⟩
  · intro s hs
    rw [isReceiptTooPoor_eq_rules]
    have : ruleEmpty s = true := by simp [ruleEmpty, hs]
    simp [this]
  · intro s hcount
    rw [isReceiptTooPoor_eq_rules]
    by_cases hne : s.items = []
    · have : ruleEmpty s = true := by simp [ruleEmpty, hne]
      simp [this]
    · have : ruleLowConf s = true := ruleLowConf_of_half s hne hcount
      simp [this]

/-- A concrete extraction with zero items: Claim C1 applies and the gate
rejects it. -/
theorem C1_quality_gate_witness :
    isReceiptTooPoor
      { thread_id := "t0", items := [], participants := [], assignments := [],
        totals := none, pending_questions := [], final_costs := none } = true :=
  C1_quality_gate.2.1
    { thread_id := "t0", items := [], participants := [], assignments := [],
      totals := none, pending_questions := [], final_costs := none } rfl

/-! ## Interview state machine (`Home` in `page.tsx`) -/

/-- The UI step (`AppStep` in `types.ts`). -/
inductive AppStep where
  | upload
  | review
  | results
deriving DecidableEq

/-- The React state of the `Home` component: one `useState` hook per field. -/
structure PageState where
  step : AppStep
  loading : Bool
  error : Option String
  state : Option ReceiptState
  clarification : Option String
  attempts : Nat
deriving DecidableEq

/-- `MAX_INTERVIEW_ATTEMPTS` in `page.tsx`. -/
def maxInterviewAttempts : Nat := 3

/-- The gate-rejection message shown by `handleUpload`. -/
def tooPoorMessage : String :=
  "The receipt image wasn’t clear enough to extract items reliably. Please upload a higher-quality photo."

/-- The terminal message shown when the attempt budget is exhausted. -/
def notEnoughInfoMessage : String :=
  "Not enough information was provided to split the bill accurately. Please try again."

/-- The generic failed-round message when neither questions nor costs came back. -/
def computeFailMessage : String :=
  "Something went wrong computing the split. Please try describing the assignments again."

/-- The attempt-count annotation appended to a clarification message:
`` `${message}\n\n(Attempt ${nextAttempt} of ${MAX_INTERVIEW_ATTEMPTS})` ``. -/
def attemptTaggedMessage (message : String) (nextAttempt : Nat) : String :=
  message ++ "\n\n(Attempt " ++ toString nextAttempt ++ " of " ++
    toString maxInterviewAttempts ++ ")"

/-- `handleFailedAttempt` from `page.tsx`: increment the attempt counter; on
reaching the budget reset to upload and clear the session, otherwise surface
the annotated clarification message. -/
def handleFailedAttempt (message : String) (st : PageState) : PageState :=
  let nextAttempt := st.attempts + 1
  if maxInterviewAttempts ≤ nextAttempt then
    { st with
      step := AppStep.upload
      error := some notEnoughInfoMessage
      state := none
      clarification := none
      attempts := 0 }
  else
    { st with
      attempts := nextAttempt
      clarification := some (attemptTaggedMessage message nextAttempt) }

/-- `handleUpload` from `page.tsx`; the backend call is embedded as its
result (`Except.error` for a thrown/transport error). -/
def handleUpload (res : Except String ReceiptState) (st : PageState) : PageState :=
  let st0 := { st with loading := true, error := none }
  let st1 :=
    match res with
    | Except.ok s =>
      if isReceiptTooPoor s then { st0 with error := some tooPoorMessage }
      else { st0 with state := some s, step := AppStep.review }
    | Except.error msg => { st0 with error := some msg }
  { st1 with loading := false }

/-- `handleInterview` from `page.tsx`: no-op without a session; otherwise
store the returned state and either fail the round on pending questions,
advance to results on a non-empty final cost list, or fail generically. -/
def handleInterview (res : Except String ReceiptState) (st : PageState) :
    PageState :=
  match st.state with
  | none => st
  | some _ =>
    let st0 := { st with loading := true, clarification := none }
    let st1 :=
      match res with
      | Except.ok s =>
        let stS := { st0 with state := some s }
        if s.pending_questions.length > 0 then
          handleFailedAttempt (joinSep "\n\n" s.pending_questions) stS
        else if (s.final_costs.getD []).length > 0 then
          { stS with step := AppStep.results }
        else
          handleFailedAttempt computeFailMessage stS
      | Except.error msg =>
        handleFailedAttempt ("Error: " ++ msg ++ ". Please try again.") st0
    { st1 with loading := false }

/-- The initial hook values of `Home`. -/
def initState : PageState :=
  { step := AppStep.upload, loading := false, error := none,
    state := none, clarification := none, attempts := 0 }

/-- `handleStartOver` from `page.tsx`: reset every hook to its initial value. -/
def handleStartOver (_st : PageState) : PageState := initState

/-- A sample backend state with no items and no diagnostics. -/
def emptyReceipt : ReceiptState :=
  { thread_id := "t0", items := [], participants := [], assignments := [],
    totals := none, pending_questions := [], final_costs := none }

/-- A sample per-participant cost entry. -/
def sampleCost : ParticipantCost :=
  { participant := "Alice", item_costs := [], subtotal := 0, tax_share := 0,
    tip_share := 0, fees_share := 0, total_owed := 0 }

/-- A sample backend state carrying both a pending question and final costs. -/
def questionAndCostsReceipt : ReceiptState :=
  { thread_id := "t0", items := [], participants := [], assignments := [],
    totals := none, pending_questions := ["Who had the pizza?"],
    final_costs := some [sampleCost] }

/-- A sample fresh review-phase page state holding `emptyReceipt`. -/
def freshReview : PageState :=
  { step := AppStep.review, loading := false, error := none,
    state := some emptyReceipt, clarification := none, attempts := 0 }

/-- Claim C2: every failed round increments `attempts`; a round whose
incremented count reaches the budget of 3 transitions to upload, clears the
session state and clarification, resets the counter, and surfaces the
terminal message; three consecutive failed rounds from a fresh session always
reset to upload, and two consecutive failed rounds never do. -/
theorem C2_attempt_budget :
    (∀ (st : PageState) (msg : String), st.attempts + 1 < maxInterviewAttempts →
        handleFailedAttempt msg st =
          { st with
            attempts := st.attempts + 1
            clarification :=
              some (attemptTaggedMessage msg (st.attempts + 1)) }) ∧
    (∀ (st : PageState) (msg : String), maxInterviewAttempts ≤ st.attempts + 1 →
        handleFailedAttempt msg st =
          { st with
            step := AppStep.upload
            error := some notEnoughInfoMessage
            state := none
            clarification := none
            attempts := 0 }) ∧
    (∀ (st : PageState) (m1 m2 m3 : String), st.attempts = 0 →
        handleFailedAttempt m3 (handleFailedAttempt m2 (handleFailedAttempt m1 st)) =
          { st with
            step := AppStep.upload
            error := some notEnoughInfoMessage
            state := none
            clarification := none
            attempts := 0 }) ∧
    (∀ (st : PageState) (m1 m2 : String), st.attempts = 0 →
        (handleFailedAttempt m2 (handleFailedAttempt m1 st)).step = st.step ∧
        (handleFailedAttempt m2 (handleFailedAttempt m1 st)).state = st.state ∧
        (handleFailedAttempt m2 (handleFailedAttempt m1 st)).attempts = 2) := by
  refine ⟨?_, ?_, ?_, ?_⟩
  · intro st msg h
    rw [handleFailedAttempt, if_neg (by omega)]
  · intro st msg h
    rw [handleFailedAttempt, if_pos (by omega)]
  · intro st m1 m2 m3 h0
    simp [handleFailedAttempt, maxInterviewAttempts, h0]
  · intro st m1 m2 h0
    simp [handleFailedAttempt, maxInterviewAttempts, h0]

/-- A concrete two-failure run from a fresh session: Claim C2 applies and the
machine stays in review with the counter at 2. -/
theorem C2_attempt_budget_witness :
    (handleFailedAttempt "b" (handleFailedAttempt "a" initState)).step =
        initState.step ∧
      (handleFailedAttempt "b" (handleFailedAttempt "a" initState)).state =
        initState.state ∧
      (handleFailedAttempt "b" (handleFailedAttempt "a" initState)).attempts = 2 :=
  C2_attempt_budget.2.2.2 initState "a" "b" rfl

lemma handleFailedAttempt_not_exhausted (msg : String) (st : PageState)
    (h : st.attempts + 1 < maxInterviewAttempts) :
    handleFailedAttempt msg st =
      { st with
        attempts := st.attempts + 1
        clarification := some (attemptTaggedMessage msg (st.attempts + 1)) } := by
  rw [handleFailedAttempt, if_neg (by omega)]

lemma handleFailedAttempt_exhausted (msg : String) (st : PageState)
    (h : maxInterviewAttempts ≤ st.attempts + 1) :
    handleFailedAttempt msg st =
      { st with
        step := AppStep.upload
        error := some notEnoughInfoMessage
        state := none
        clarification := none
        attempts := 0 } := by
  rw [handleFailedAttempt, if_pos (by omega)]

/-- Claim C5: when the quality gate rejects an uploaded extraction, the page
keeps its phase (staying in upload), surfaces the reject reason as the error,
consumes no attempt, and stores no session state. -/
theorem C5_gate_reject_frame :
    ∀ (st : PageState) (s : ReceiptState),
      st.step = AppStep.upload → isReceiptTooPoor s = true →
      handleUpload (Except.ok s) st =
        { st with error := some tooPoorMessage, loading := false } ∧
      (handleUpload (Except.ok s) st).step = AppStep.upload ∧
      (handleUpload (Except.ok s) st).attempts = st.attempts ∧
      (handleUpload (Except.ok s) st).state = st.state ∧
      (handleUpload (Except.ok s) st).clarification = st.clarification := by
  intro st s hstep hpoor
  have h : handleUpload (Except.ok s) st =
      { st with error := some tooPoorMessage, loading := false } := by
    rw [handleUpload]
    simp [hpoor]
  exact ⟨h, by rw [h]; exact hstep, by rw [h], by rw [h], by rw [h]⟩

/-- A concrete gate-rejected upload (zero extracted items) from the initial
page state: Claim C5 applies and the page stays in upload, untouched except
for the error banner. -/
theorem C5_gate_reject_frame_witness :
    handleUpload (Except.ok emptyReceipt) initState =
      { initState with error := some tooPoorMessage, loading := false } :=
  (C5_gate_reject_frame initState emptyReceipt rfl (by decide)).1

/-- Claim C6: a failed interview round that does not exhaust the attempt
budget leaves the machine in the review phase and surfaces the clarification
text — the pending questions joined with blank lines, the generic computation
failure message, or the transport error message — annotated with the updated
attempt count out of 3. -/
theorem C6_failed_round_clarification :
    ∀ (st : PageState) (s : ReceiptState) (msg : String),
      st.step = AppStep.review → st.state.isSome = true →
      st.attempts + 1 < maxInterviewAttempts →
      (s.pending_questions ≠ [] →
        handleInterview (Except.ok s) st =
          { st with
            state := some s
            loading := false
            attempts := st.attempts + 1
            clarification :=
              some (attemptTaggedMessage (joinSep "\n\n" s.pending_questions)
                (st.attempts + 1)) }) ∧
      (s.pending_questions = [] → s.final_costs.getD [] = [] →
        handleInterview (Except.ok s) st =
          { st with
            state := some s
            loading := false
            attempts := st.attempts + 1
            clarification :=
              some (attemptTaggedMessage computeFailMessage (st.attempts + 1)) }) ∧
      (handleInterview (Except.error msg) st =
        { st with
          loading := false
          attempts := st.attempts + 1
          clarification :=
            some (attemptTaggedMessage ("Error: " ++ msg ++ ". Please try again.")
              (st.attempts + 1)) }) ∧
      (handleInterview (Except.error msg) st).step = AppStep.review := by
  intro st s msg hstep hsome hatt
  obtain ⟨s0, hs0⟩ := Option.isSome_iff_exists.mp hsome
  have herr : handleInterview (Except.error msg) st =
      { st with
        loading := false
        attempts := st.attempts + 1
        clarification :=
          some (attemptTaggedMessage ("Error: " ++ msg ++ ". Please try again.")
            (st.attempts + 1)) } := by
    rw [handleInterview]
    rw [hs0]
    simp only []
    rw [handleFailedAttempt_not_exhausted _ _ (by simpa using hatt)]
  refine ⟨?_, ?_, herr, ?_⟩
  · intro hq
    rw [handleInterview, hs0]
    simp only []
    rw [if_pos (by simpa using List.length_pos.mpr hq)]
    rw [handleFailedAttempt_not_exhausted _ _ (by simpa using hatt)]
  · intro hq hf
    rw [handleInterview, hs0]
    simp only []
    rw [if_neg (by simp [hq]), if_neg (by simp [hf])]
    rw [handleFailedAttempt_not_exhausted _ _ (by simpa using hatt)]
  · rw [herr]
    exact hstep

/-- A concrete non-exhausting failed round (a transport error on the first
attempt of a fresh review session): Claim C6 applies and the round surfaces
the annotated error text while staying in review. -/
theorem C6_failed_round_clarification_witness :
    (handleInterview (Except.error "boom") freshReview).step = AppStep.review :=
  (C6_failed_round_clarification freshReview emptyReceipt "boom" rfl rfl
    (by decide)).2.2.2

/-- Claim C9: if a round returns both pending clarification questions and a
non-empty final cost list, the questions win — the round is handled exactly
as a failed attempt on the joined question text (incrementing the counter and
surfacing the clarification when the budget is not exhausted), and the
machine does not move to the results phase. -/
theorem C9_questions_precedence :
    ∀ (st : PageState) (s : ReceiptState),
      st.step = AppStep.review → st.state.isSome = true →
      s.pending_questions ≠ [] → s.final_costs.getD [] ≠ [] →
      handleInterview (Except.ok s) st =
        { handleFailedAttempt (joinSep "\n\n" s.pending_questions)
            { st with loading := true, clarification := none, state := some s } with
          loading := false } ∧
      (handleInterview (Except.ok s) st).step ≠ AppStep.results ∧
      (st.attempts + 1 < maxInterviewAttempts →
        (handleInterview (Except.ok s) st).attempts = st.attempts + 1 ∧
        (handleInterview (Except.ok s) st).clarification =
          some (attemptTaggedMessage (joinSep "\n\n" s.pending_questions)
            (st.attempts + 1))) := by
  intro st s hstep hsome hq _hf
  obtain ⟨s0, hs0⟩ := Option.isSome_iff_exists.mp hsome
  have hmain : handleInterview (Except.ok s) st =
      { handleFailedAttempt (joinSep "\n\n" s.pending_questions)
          { st with loading := true, clarification := none, state := some s } with
        loading := false } := by
    rw [handleInterview, hs0]
    simp only []
    rw [if_pos (by simpa using List.length_pos.mpr hq)]
  refine ⟨hmain, ?_, ?_⟩
  · rw [hmain]
    by_cases hex : maxInterviewAttempts ≤ st.attempts + 1
    · rw [handleFailedAttempt_exhausted _ _ (by simpa using hex)]
      simp
    · rw [handleFailedAttempt_not_exhausted _ _ (by simpa using (by omega : st.attempts + 1 < maxInterviewAttempts))]
      simp [hstep]
  · intro hatt
    rw [hmain, handleFailedAttempt_not_exhausted _ _ (by simpa using hatt)]
    exact ⟨rfl, rfl⟩

/-- A concrete round returning both a question and a final cost list on a
fresh review session: Claim C9 applies and the updated count and annotated
question are surfaced instead of moving to results. -/
theorem C9_questions_precedence_witness :
    (handleInterview (Except.ok questionAndCostsReceipt) freshReview).step ≠
      AppStep.results :=
  (C9_questions_precedence freshReview questionAndCostsReceipt rfl rfl
    (List.cons_ne_nil _ _) (List.cons_ne_nil _ _)).2.1

/-! ## The event system of `Home`

The `main` block of `page.tsx` renders exactly one step component at a time:
`UploadStep` (with `handleUpload`) only when `step === "upload" && !loading`,
`ReviewStep` (with `handleInterview` and `handleStartOver` as cancel) only
when `step === "review" && state`, and `ResultsStep` (with `handleStartOver`)
only when `step === "results" && state?.final_costs`. The events below are
those callbacks, guarded by the same rendering conditions. -/

/-- A user-visible operation of the page, with the embedded backend result. -/
inductive Event where
  | upload (res : Except String ReceiptState)
  | interview (res : Except String ReceiptState)
  | startOver

/-- The effect of each event on the page state. -/
def applyEvent : Event → PageState → PageState
  | Event.upload res, st => handleUpload res st
  | Event.interview res, st => handleInterview res st
  | Event.startOver, st => handleStartOver st

/-- The `step === "results" && state?.final_costs` rendering guard. -/
def hasRenderableResults (st : PageState) : Prop :=
  ∃ s, st.state = some s ∧ s.final_costs.isSome = true

/-- Which events the rendered page makes available in a given state,
following the rendering guards of `Home`. -/
def enabled (st : PageState) : Event → Prop
  | Event.upload _ => st.step = AppStep.upload ∧ st.loading = false
  | Event.interview _ => st.step = AppStep.review ∧ st.state.isSome = true
  | Event.startOver =>
      (st.step = AppStep.review ∧ st.state.isSome = true) ∨
      (st.step = AppStep.results ∧ hasRenderableResults st)

/-- The page states reachable from the initial hook values through rendered
events. -/
inductive Reachable : PageState → Prop where
  | init : Reachable initState
  | next {st : PageState} (e : Event) : Reachable st → enabled st e →
      Reachable (applyEvent e st)

lemma handleFailedAttempt_upload_inv (msg : String) (st : PageState)
    (hrev : st.step = AppStep.review)
    (h : (handleFailedAttempt msg st).step = AppStep.upload) :
    (handleFailedAttempt msg st).attempts = 0 ∧
      (handleFailedAttempt msg st).state = none := by
  by_cases hex : maxInterviewAttempts ≤ st.attempts + 1
  · rw [handleFailedAttempt_exhausted _ _ hex]
    exact ⟨rfl, rfl⟩
  · have h2 : st.step = AppStep.upload := by
      rw [handleFailedAttempt_not_exhausted _ _ (by omega)] at h
      exact h
    rw [hrev] at h2
    exact absurd h2 (by simp)

lemma reachable_upload_inv :
    ∀ st : PageState, Reachable st → st.step = AppStep.upload →
      st.attempts = 0 ∧ st.state = none := by
  intro st h
  induction h with
  | init => intro _; exact ⟨rfl, rfl⟩
  | next e hr hen ih =>
    intro hstep
    rename_i st0
    cases e with
    | upload res =>
      have h0 := ih hen.1
      cases res with
      | ok s =>
        by_cases hp : isReceiptTooPoor s = true
        · rw [applyEvent, handleUpload] at hstep ⊢
          simp only [hp, if_true]
          exact h0
        · rw [applyEvent, handleUpload] at hstep
          simp only [Bool.not_eq_true] at hp
          simp [hp] at hstep
      | error msg =>
        rw [applyEvent, handleUpload] at hstep ⊢
        exact h0
    | interview res =>
      obtain ⟨hrev, hsome⟩ := hen
      obtain ⟨s0, hs0⟩ := Option.isSome_iff_exists.mp hsome
      cases res with
      | ok s =>
        rw [applyEvent, handleInterview, hs0] at hstep ⊢
        simp only [] at hstep ⊢
        by_cases hq : s.pending_questions.length > 0
        · rw [if_pos hq] at hstep ⊢
          exact handleFailedAttempt_upload_inv _ _ hrev hstep
        · rw [if_neg hq] at hstep ⊢
          by_cases hf : (s.final_costs.getD []).length > 0
          · rw [if_pos hf] at hstep
            exact absurd hstep (by simp)
          · rw [if_neg hf] at hstep ⊢
            exact handleFailedAttempt_upload_inv _ _ hrev hstep
      | error msg =>
        rw [applyEvent, handleInterview, hs0] at hstep ⊢
        simp only [] at hstep ⊢
        exact handleFailedAttempt_upload_inv _ _ hrev hstep
    | startOver =>
      exact ⟨rfl, rfl⟩

/-- Claim C4: in every reachable page state whose phase is upload, the
attempt counter is zero — both entries into upload (budget exhaustion and
explicit reset) zero it, and no operation available there increments it. -/
theorem C4_upload_attempts_zero :
    ∀ st : PageState, Reachable st → st.step = AppStep.upload →
      st.attempts = 0 :=
  fun st h hstep => (reachable_upload_inv st h hstep).1

/-- The initial page state is reachable and in upload: Claim C4 applies and
its counter is zero. -/
theorem C4_upload_attempts_zero_witness : initState.attempts = 0 :=
  C4_upload_attempts_zero initState Reachable.init rfl

/-- Claim C7: the results phase is terminal — neither an upload/gate event
nor an interview round is available there, and the only available exit is the
explicit reset, which re-enters upload with every hook cleared. -/
theorem C7_results_terminal :
    ∀ st : PageState, st.step = AppStep.results →
      (∀ res, ¬ enabled st (Event.upload res)) ∧
      (∀ res, ¬ enabled st (Event.interview res)) ∧
      applyEvent Event.startOver st = initState := by
  intro st hstep
  refine ⟨?_, ?_, rfl⟩
  · intro res hen
    have h1 : st.step = AppStep.upload := hen.1
    rw [hstep] at h1
    exact absurd h1 (by simp)
  · intro res hen
    have h1 : st.step = AppStep.review := hen.1
    rw [hstep] at h1
    exact absurd h1 (by simp)

/-- A concrete results-phase state: Claim C7 applies and its reset returns
the initial page state. -/
theorem C7_results_terminal_witness :
    applyEvent Event.startOver
      { step := AppStep.results, loading := false, error := none,
        state := some questionAndCostsReceipt, clarification := none,
        attempts := 0 } = initState :=
  (C7_results_terminal
    { step := AppStep.results, loading := false, error := none,
      state := some questionAndCostsReceipt, clarification := none,
      attempts := 0 } rfl).2.2

/-! ## The review-step submit guard (`ReviewStep.tsx`) -/

namespace ReviewStep

/-- `handleSubmit` from `ReviewStep.tsx`: trim the textarea text, bail out on
an empty result, otherwise invoke `onSubmit` with the trimmed text. `some t`
means the submission callback is invoked with `t`; `none` means it is not. -/
def handleSubmit (text : String) : Option String :=
  let trimmed := trimStr text
  if trimmed = "" then none else some trimmed

end ReviewStep

/-- The review-phase submission as seen from the page: `ReviewStep` either
swallows the click (no backend round, state untouched) or forwards the
trimmed text to `handleInterview`. -/
def reviewSubmit (text : String) (res : Except String ReceiptState)
    (st : PageState) : PageState :=
  match ReviewStep.handleSubmit text with
  | none => st
  | some _ => handleInterview res st

/-- Claim C10: submitting empty or whitespace-only text from the review step
is a no-op — the submission callback is never invoked, no interview round
happens, and the page state is unchanged. -/
theorem C10_blank_submit_noop :
    ∀ text : String, (∀ c ∈ text.data, c.isWhitespace = true) →
      ReviewStep.handleSubmit text = none ∧
      ∀ (res : Except String ReceiptState) (st : PageState),
        reviewSubmit text res st = st := by
  intro text hws
  have htrim : trimStr text = "" := by
    have hdrop : text.data.dropWhile Char.isWhitespace = [] :=
      List.dropWhile_eq_nil_iff.mpr hws
    rw [trimStr, hdrop]
    rfl
  have hsub : ReviewStep.handleSubmit text = none := by
    rw [ReviewStep.handleSubmit]
    simp [htrim]
  refine ⟨hsub, ?_⟩
  intro res st
  rw [reviewSubmit, hsub]

/-- A concrete whitespace-only submission: Claim C10 applies and the callback
is never invoked. -/
theorem C10_blank_submit_noop_witness :
    ReviewStep.handleSubmit "  \n " = none :=
  (C10_blank_submit_noop "  \n " (by decide)).1

/-! ## Results reconciliation (`ResultsStep.tsx`) -/

/-- What `ResultsStep` renders: the per-person cards, the computed sum of all
shares, and whether the match badge (as opposed to the discrepancy badge) is
shown. -/
structure ResultsView where
  cards : List ParticipantCost
  sumOfShares : ℚ
  matchBadge : Bool
deriving DecidableEq

/-- `ResultsStep` from `ResultsStep.tsx`: it always renders one card per
entry of `costs`, computes `grandTotal` by summing `total_owed`, and shows
the match badge exactly when `Math.abs(grandTotal - totals.grand_total)` is
strictly below `0.06`. -/
def renderResults (costs : List ParticipantCost) (totals : Totals) :
    ResultsView :=
  let grandTotal := costs.foldl (fun sum c => sum + c.total_owed) 0
  { cards := costs
    sumOfShares := grandTotal
    matchBadge := decide (|grandTotal - totals.grand_total| < 6 / 100) }

/-- A one-person cost list summing to 10.06 against a stated total of 10.00:
the absolute difference is exactly the 0.06 tolerance. -/
def boundaryCost : ParticipantCost :=
  { participant := "Alice", item_costs := [], subtotal := 1006 / 100,
    tax_share := 0, tip_share := 0, fees_share := 0, total_owed := 1006 / 100 }

/-- Totals stating a grand total of 10.00. -/
def boundaryTotals : Totals :=
  { subtotal := 10, tax_total := 0, tip_total := 0, fees_total := 0,
    grand_total := 10 }

/-- Claim C3 counterexample: with a shares sum of 10.06 against a grand total
of 10.00 the absolute difference is exactly 0.06 — within the claimed
inclusive tolerance — yet the code reports a discrepancy, not a match, so the
0.06 boundary is exclusive, not inclusive. -/
theorem C3_tolerance_counterexample :
    |(renderResults [boundaryCost] boundaryTotals).sumOfShares -
        boundaryTotals.grand_total| ≤ 6 / 100 ∧
      (renderResults [boundaryCost] boundaryTotals).matchBadge = false := by
  constructor
  · show |(0 + (1006 / 100 : ℚ)) - 10| ≤ 6 / 100
    rw [abs_of_nonneg (by norm_num)]
    norm_num
  · show decide (|(0 + (1006 / 100 : ℚ)) - 10| < 6 / 100) = false
    rw [decide_eq_false_iff_not]
    rw [abs_of_nonneg (by norm_num)]
    norm_num

lemma foldl_total_owed (costs : List ParticipantCost) :
    ∀ a : ℚ, costs.foldl (fun sum c => sum + c.total_owed) a =
      a + (costs.map ParticipantCost.total_owed).sum := by
  induction costs with
  | nil => intro a; simp
  | cons c rest ih =>
    intro a
    simp only [List.foldl_cons, List.map_cons, List.sum_cons]
    rw [ih]
    ring

/-- Claim C3 (amended): the reconciliation tolerance of `0.06` is exclusive —
the match badge is shown exactly when the absolute difference between the sum
of `total_owed` over all participants and the receipt grand total is strictly
less than 0.06, a difference of exactly 0.06 or more shows the discrepancy
badge instead — and the per-participant cards are rendered in either case
rather than blocked. -/
theorem C3_reconciliation_display :
    ∀ (costs : List ParticipantCost) (totals : Totals),
      (renderResults costs totals).cards = costs ∧
      (renderResults costs totals).sumOfShares =
        (costs.map ParticipantCost.total_owed).sum ∧
      ((renderResults costs totals).matchBadge = true ↔
        |(costs.map ParticipantCost.total_owed).sum - totals.grand_total| <
          6 / 100) := by
  intro costs totals
  have hsum : costs.foldl (fun sum c => sum + c.total_owed) 0 =
      (costs.map ParticipantCost.total_owed).sum := by
    rw [foldl_total_owed]
    ring
  refine ⟨rfl, ?_, ?_⟩
  · show costs.foldl (fun sum c => sum + c.total_owed) 0 =
      (costs.map ParticipantCost.total_owed).sum
    exact hsum
  · show decide (|costs.foldl (fun sum c => sum + c.total_owed) 0 -
        totals.grand_total| < 6 / 100) = true ↔ _
    rw [decide_eq_true_eq, hsum]

/-! ## Storage boundary (the SQL schema)

The four domain tables with their CHECK, PRIMARY KEY, and REFERENCES
constraints from the schema file. NUMERIC columns are embedded as rationals;
a row can be stored only through its insert function, which enforces exactly
the declared constraints. -/

/-- A row of `receipts`. -/
structure ReceiptRow where
  id : String
  subtotal : ℚ
  tax_total : ℚ
  tip_total : ℚ
  fees_total : ℚ
  grand_total : ℚ
deriving DecidableEq

/-- A row of `receipt_items`. -/
structure ItemRow where
  id : String
  receipt_id : String
  name : String
  quantity : ℚ
  unit_price : ℚ
  line_total : ℚ
deriving DecidableEq

/-- A row of `participants`. -/
structure ParticipantRow where
  id : String
  receipt_id : String
  name : String
deriving DecidableEq

/-- A row of `assignments`. -/
structure AssignmentRow where
  item_id : String
  participant_id : String
  fraction : ℚ
deriving DecidableEq

/-- The relational state: the four domain tables. -/
structure Database where
  receipts : List ReceiptRow
  receipt_items : List ItemRow
  participants : List ParticipantRow
  assignments : List AssignmentRow
deriving DecidableEq

/-- The empty database (the schema file starts by dropping all tables). -/
def emptyDb : Database :=
  { receipts := [], receipt_items := [], participants := [], assignments := [] }

/-- The CHECK constraints of `receipts`: non-negative components and
`grand_total = subtotal + tax_total + tip_total + fees_total`. -/
def receiptCheck (r : ReceiptRow) : Bool :=
  decide (0 ≤ r.subtotal) && decide (0 ≤ r.tax_total) &&
  decide (0 ≤ r.tip_total) && decide (0 ≤ r.fees_total) &&
  decide (0 ≤ r.grand_total) &&
  decide (r.grand_total = r.subtotal + r.tax_total + r.tip_total + r.fees_total)

/-- The CHECK constraints of `receipt_items`. -/
def itemCheck (it : ItemRow) : Bool :=
  decide (0 < it.quantity) && decide (0 ≤ it.unit_price) &&
  decide (0 ≤ it.line_total)

/-- The CHECK constraint of `assignments`: `fraction >= 0 AND fraction <= 1`. -/
def assignmentCheck (a : AssignmentRow) : Bool :=
  decide (0 ≤ a.fraction) && decide (a.fraction ≤ 1)

/-- INSERT into `receipts`: CHECK constraints plus primary-key uniqueness. -/
def insertReceipt (db : Database) (r : ReceiptRow) : Option Database :=
  if receiptCheck r && db.receipts.all (fun r0 => !(r0.id == r.id)) then
    some { db with receipts := db.receipts ++ [r] }
  else none

/-- INSERT into `receipt_items`: CHECK constraints, primary-key uniqueness,
and the foreign key into `receipts`. -/
def insertItem (db : Database) (it : ItemRow) : Option Database :=
  if itemCheck it && db.receipt_items.all (fun x => !(x.id == it.id)) &&
      db.receipts.any (fun r => r.id == it.receipt_id) then
    some { db with receipt_items := db.receipt_items ++ [it] }
  else none

/-- INSERT into `participants`: primary-key uniqueness, per-receipt name
uniqueness, and the foreign key into `receipts`. -/
def insertParticipant (db : Database) (p : ParticipantRow) : Option Database :=
  if db.participants.all (fun q => !(q.id == p.id)) &&
      db.participants.all
        (fun q => !(q.receipt_id == p.receipt_id && q.name == p.name)) &&
      db.receipts.any (fun r => r.id == p.receipt_id) then
    some { db with participants := db.participants ++ [p] }
  else none

/-- INSERT into `assignments`: the fraction CHECK, the composite primary
key, and the foreign keys into `receipt_items` and `participants`. -/
def insertAssignment (db : Database) (a : AssignmentRow) : Option Database :=
  if assignmentCheck a &&
      db.assignments.all
        (fun b => !(b.item_id == a.item_id && b.participant_id == a.participant_id)) &&
      db.receipt_items.any (fun it => it.id == a.item_id) &&
      db.participants.any (fun p => p.id == a.participant_id) then
    some { db with assignments := db.assignments ++ [a] }
  else none

/-- Database states buildable from the freshly created schema by row
insertion. -/
inductive DbReached : Database → Prop where
  | empty : DbReached emptyDb
  | addReceipt {db db' : Database} (r : ReceiptRow) : DbReached db →
      insertReceipt db r = some db' → DbReached db'
  | addItem {db db' : Database} (it : ItemRow) : DbReached db →
      insertItem db it = some db' → DbReached db'
  | addParticipant {db db' : Database} (p : ParticipantRow) : DbReached db →
      insertParticipant db p = some db' → DbReached db'
  | addAssignment {db db' : Database} (a : AssignmentRow) : DbReached db →
      insertAssignment db a = some db' → DbReached db'

/-- Claim C8: in every database state reachable through the storage boundary,
every persisted receipt satisfies
`grand_total = subtotal + tax_total + tip_total + fees_total` exactly, and
every persisted assignment fraction lies in `[0, 1]`; both are enforced on
row creation by the CHECK constraints. -/
theorem C8_storage_invariants :
    ∀ db : Database, DbReached db →
      (∀ r ∈ db.receipts,
        r.grand_total = r.subtotal + r.tax_total + r.tip_total + r.fees_total) ∧
      (∀ a ∈ db.assignments, 0 ≤ a.fraction ∧ a.fraction ≤ 1) := by
  intro db h
  induction h with
  | empty => exact ⟨by simp [emptyDb], by simp [emptyDb]⟩
  | addReceipt r hr heq ih =>
    rw [insertReceipt] at heq
    split at heq
    · rename_i hcond
      simp only [receiptCheck, Bool.and_eq_true, decide_eq_true_eq] at hcond
      obtain ⟨⟨_, hEQ⟩, _⟩ := hcond
      injection heq with heq
      subst heq
      refine ⟨?_, ih.2⟩
      intro r0 hr0
      rcases List.mem_append.mp hr0 with hmem | hmem
      · exact ih.1 r0 hmem
      · rw [List.mem_singleton.mp hmem]
        exact hEQ
    · exact absurd heq (by simp)
  | addItem it hr heq ih =>
    rw [insertItem] at heq
    split at heq
    · injection heq with heq
      subst heq
      exact ⟨ih.1, ih.2⟩
    · exact absurd heq (by simp)
  | addParticipant p hr heq ih =>
    rw [insertParticipant] at heq
    split at heq
    · injection heq with heq
      subst heq
      exact ⟨ih.1, ih.2⟩
    · exact absurd heq (by simp)
  | addAssignment a hr heq ih =>
    rw [insertAssignment] at heq
    split at heq
    · rename_i hcond
      simp only [assignmentCheck, Bool.and_eq_true, decide_eq_true_eq] at hcond
      obtain ⟨⟨⟨hcheck, _⟩, _⟩, _⟩ := hcond
      injection heq with heq
      subst heq
      refine ⟨ih.1, ?_⟩
      intro a0 ha0
      rcases List.mem_append.mp ha0 with hmem | hmem
      · exact ih.2 a0 hmem
      · rw [List.mem_singleton.mp hmem]
        exact hcheck
    · exact absurd heq (by simp)

/-- A sample receipt row satisfying the `receipts` constraints. -/
def wReceiptRow : ReceiptRow :=
  { id := "t1", subtotal := 10, tax_total := 1, tip_total := 2, fees_total := 0,
    grand_total := 13 }

/-- A sample item row for `wReceiptRow`. -/
def wItemRow : ItemRow :=
  { id := "i1", receipt_id := "t1", name := "Burger", quantity := 1,
    unit_price := 10, line_total := 10 }

/-- A sample participant row for `wReceiptRow`. -/
def wParticipantRow : ParticipantRow :=
  { id := "p1", receipt_id := "t1", name := "Alice" }

/-- A sample half-share assignment row for `wItemRow` and `wParticipantRow`. -/
def wAssignmentRow : AssignmentRow :=
  { item_id := "i1", participant_id := "p1", fraction := 1 / 2 }

/-- The database after inserting the four sample rows in dependency order. -/
def wDb : Database :=
  { receipts := [wReceiptRow], receipt_items := [wItemRow],
    participants := [wParticipantRow], assignments := [wAssignmentRow] }

/-- The database after the first sample insert. -/
def wDb1 : Database :=
  { receipts := [wReceiptRow], receipt_items := [], participants := [],
    assignments := [] }

/-- The database after the second sample insert. -/
def wDb2 : Database :=
  { receipts := [wReceiptRow], receipt_items := [wItemRow], participants := [],
    assignments := [] }

/-- The database after the third sample insert. -/
def wDb3 : Database :=
  { receipts := [wReceiptRow], receipt_items := [wItemRow],
    participants := [wParticipantRow], assignments := [] }

lemma wDb_step1 : insertReceipt emptyDb wReceiptRow = some wDb1 := by
  rw [insertReceipt]
  norm_num [receiptCheck, emptyDb, wDb1, wReceiptRow]

lemma wDb_step2 : insertItem wDb1 wItemRow = some wDb2 := by
  rw [insertItem]
  norm_num [itemCheck, wDb1, wDb2, wReceiptRow, wItemRow]

lemma wDb_step3 : insertParticipant wDb2 wParticipantRow = some wDb3 := by
  rw [insertParticipant]
  norm_num [wDb2, wDb3, wReceiptRow, wItemRow, wParticipantRow]

lemma wDb_step4 : insertAssignment wDb3 wAssignmentRow = some wDb := by
  rw [insertAssignment]
  norm_num [assignmentCheck, wDb3, wDb, wReceiptRow, wItemRow,
    wParticipantRow, wAssignmentRow]

lemma wDb_reached : DbReached wDb :=
  DbReached.addAssignment wAssignmentRow
    (DbReached.addParticipant wParticipantRow
      (DbReached.addItem wItemRow
        (DbReached.addReceipt wReceiptRow DbReached.empty wDb_step1)
        wDb_step2)
      wDb_step3)
    wDb_step4

/-- A concrete database built through the storage boundary: Claim C8 applies
to its one receipt and one assignment row. -/
theorem C8_storage_invariants_witness :
    (wReceiptRow.grand_total =
      wReceiptRow.subtotal + wReceiptRow.tax_total + wReceiptRow.tip_total +
        wReceiptRow.fees_total) ∧
    (0 ≤ wAssignmentRow.fraction ∧ wAssignmentRow.fraction ≤ 1) :=
  ⟨(C8_storage_invariants wDb wDb_reached).1 wReceiptRow (by simp [wDb]),
   (C8_storage_invariants wDb wDb_reached).2 wAssignmentRow (by simp [wDb])⟩

end ReceiptSplitter
